import Mathlib

/-!
Verification of the sticker-printer raster/transport pipeline.

The definitions below are a shallow embedding of `src/modules/printer.js`
(class `PrinterManager`) and `src/modules/constants.js` of the
jfsiii/sticker-printer repository.  JavaScript numbers are IEEE-754
binary64 values; the luminance computation is embedded by exact dyadic
rationals with 53-bit round-to-nearest-even rounding after every operation
(see the binary64 model section).  Byte values are naturals; RGBA canvas
data is a flat list of channel values as returned by `getImageData`.
-/

/-! ### Constants (`src/modules/constants.js`, `PRINTER_CONFIG` / `COMMANDS` /
`PHOMEMO_COMMANDS`) -/

def PRINTER_WIDTH : Nat := 384

def BYTES_PER_LINE : Nat := 48

def MTU_SIZE : Nat := 150

def LINES_PER_CHUNK : Nat := 8

def ESC : Nat := 0x1b

def GS : Nat := 0x1d

def WAKE_PRINTER : List Nat := [0x1a, 0x04, 0x5a]

def SET_DENSITY : List Nat := [0x1a, 0x09, 0x0c]

def SET_LABEL_GAP : List Nat := [0x1a, 0x07, 0x01, 0x00, 0x00]

def SET_PRINT_SPEED : List Nat := [0x1f, 0x11, 0x02, 0x04]

/-! ### IEEE-754 binary64 arithmetic model

JavaScript numbers are IEEE-754 binary64 values.  Every number reached by
the luminance computation (byte-valued channels scaled by the constants
below and their partial sums) is a finite nonnegative binary64 value far
from overflow and underflow, so a double is embedded as a nonnegative
dyadic rational `m * 2^e`, and each arithmetic operation rounds its exact
result to 53 significant bits with round-to-nearest, ties-to-even — the
IEEE-754 behavior on this range. -/

/-- Number of binary digits of `n` (valid for every `n < 2^70`, far beyond
any mantissa the luminance computation produces). -/
def bitLen (n : Nat) : Nat :=
  (List.range 70).foldl (fun acc i => if 2 ^ i ≤ n then i + 1 else acc) 0

/-- A nonnegative dyadic rational `m * 2^e`: the value of a binary64
number. -/
structure Dyadic where
  m : Nat
  e : Int
  deriving DecidableEq

/-- The rational value `m * 2^e` of a dyadic number. -/
def Dyadic.toRat (d : Dyadic) : ℚ := (d.m : ℚ) * 2 ^ d.e

/-- Round a dyadic value to 53 significant bits, round-to-nearest with ties
to even: binary64 rounding on the normal range. -/
def roundNear53 (d : Dyadic) : Dyadic :=
  if bitLen d.m ≤ 53 then d
  else
    let s := bitLen d.m - 53
    let q := d.m >>> s
    let r := d.m % 2 ^ s
    let half := 2 ^ (s - 1)
    let q' := if half < r then q + 1
              else if r < half then q
              else if q % 2 = 0 then q else q + 1
    ⟨q', d.e + s⟩

/-- Exact product of two dyadic values. -/
def Dyadic.exactMul (a b : Dyadic) : Dyadic := ⟨a.m * b.m, a.e + b.e⟩

/-- Exact sum of two dyadic values, aligned to the smaller exponent. -/
def Dyadic.exactAdd (a b : Dyadic) : Dyadic :=
  if a.e ≤ b.e then ⟨b.m * 2 ^ (b.e - a.e).toNat + a.m, a.e⟩
  else ⟨a.m * 2 ^ (a.e - b.e).toNat + b.m, b.e⟩

/-- Binary64 multiplication: the correctly rounded exact product. -/
def jsMul (a b : Dyadic) : Dyadic := roundNear53 (a.exactMul b)

/-- Binary64 addition: the correctly rounded exact sum. -/
def jsAdd (a b : Dyadic) : Dyadic := roundNear53 (a.exactAdd b)

/-- Strict order on dyadic values — `<` on the doubles they denote —
computed in integer arithmetic (see `Dyadic.blt_iff_toRat`). -/
def Dyadic.blt (a b : Dyadic) : Bool :=
  if a.e ≤ b.e then decide (a.m < b.m * 2 ^ (b.e - a.e).toNat)
  else decide (a.m * 2 ^ (a.e - b.e).toNat < b.m)

/-- The binary64 value of the JS literal `0.299`:
`5386305154335113 * 2^-54` (see `FP_0299_nearest`). -/
def FP_0299 : Dyadic := ⟨5386305154335113, -54⟩

/-- The binary64 value of the JS literal `0.587`:
`2643612981266481 * 2^-52` (see `FP_0587_nearest`). -/
def FP_0587 : Dyadic := ⟨2643612981266481, -52⟩

/-- The binary64 value of the JS literal `0.114`:
`8214565720323785 * 2^-56` (see `FP_0114_nearest`). -/
def FP_0114 : Dyadic := ⟨8214565720323785, -56⟩

/-- The binary64 value `128` (integers this small are exact doubles). -/
def FP_128 : Dyadic := ⟨128, 0⟩

/-! ### Raster encoder (`PrinterManager.canvasToBitmap`) -/

/-- The pixel source handed to `canvasToBitmap`: the canvas dimensions plus the
flat RGBA array obtained from `ctx.getImageData(0, 0, canvas.width,
canvas.height)`. -/
structure PixelBuffer where
  width : Nat
  height : Nat
  data : List Nat
  deriving DecidableEq

/-- `r * 0.299 + g * 0.587 + b * 0.114`, the luminance computed by the inner
loop of `canvasToBitmap`: the JS expression evaluated left to right in
binary64 arithmetic.  Channel values come from a `Uint8ClampedArray`, so
they are at most 255 and exact as doubles. -/
def brightness (r g b : Nat) : Dyadic :=
  jsAdd (jsAdd (jsMul ⟨r, 0⟩ FP_0299) (jsMul ⟨g, 0⟩ FP_0587))
    (jsMul ⟨b, 0⟩ FP_0114)

/-- The spec's luminance `0.299·r + 0.587·g + 0.114·b` read with exact real
arithmetic — the reading under which claim C1 is stated.  It differs from
the program's binary64 evaluation `brightness` at byte triples whose exact
luminance is exactly 128 (see `canvasToBitmap_spec_counterexample`). -/
def exactLuminance (r g b : Nat) : ℚ :=
  (r : ℚ) * (299 / 1000) + (g : ℚ) * (587 / 1000) + (b : ℚ) * (114 / 1000)

/-- One byte of the packed bitmap: the innermost loop of `canvasToBitmap`,
packing 8 horizontally adjacent pixels MSB-first.  Out-of-range reads of the
RGBA array are guarded exactly as in the source (`px < canvas.width` and
`idx + 3 < data.length`). -/
def pixelByte (data : List Nat) (width y x : Nat) : Nat :=
  (List.range 8).foldl (fun byte bit =>
    let px := x * 8 + bit
    if px < width then
      let idx := (y * width + px) * 4
      if idx + 3 < data.length then
        if Dyadic.blt (brightness (data.getD idx 0) (data.getD (idx + 1) 0)
            (data.getD (idx + 2) 0)) FP_128 then
          byte ||| (1 <<< (7 - bit))
        else byte
      else byte
    else byte) 0

/-- `PrinterManager.canvasToBitmap`: one row of `BYTES_PER_LINE` bytes per
canvas scanline. -/
def canvasToBitmap (canvas : PixelBuffer) : List (List Nat) :=
  (List.range canvas.height).map fun y =>
    (List.range BYTES_PER_LINE).map fun x =>
      pixelByte canvas.data canvas.width y x

/-- The binary64 luminance the encoder computes for pixel `(px, y)` of a
buffer of the given width: channels are read at
`(y * width + px) * 4 + 0/1/2`. -/
def luminance (data : List Nat) (width y px : Nat) : Dyadic :=
  brightness (data.getD ((y * width + px) * 4) 0)
    (data.getD ((y * width + px) * 4 + 1) 0)
    (data.getD ((y * width + px) * 4 + 2) 0)

/-- Whether the innermost loop of `canvasToBitmap` sets the bit for bit
position `bit` of byte column `x` in row `y`. -/
def inkBit (data : List Nat) (width y x bit : Nat) : Bool :=
  decide (x * 8 + bit < width) &&
  decide ((y * width + (x * 8 + bit)) * 4 + 3 < data.length) &&
  Dyadic.blt (luminance data width y (x * 8 + bit)) FP_128

/-! ### Chunked transport (`PrinterManager.sendData`)

`sendData` is embedded as a pure function over an oracle `write : Nat → Option
String` giving the outcome of the `k`-th `writeValue` call (`none` = the write
resolves, `some e` = it rejects with error `e`).  The result is the ordered
list of chunk writes issued together with `none` on success or the propagated
error.  The inter-chunk 5 ms pacing delay has no observable effect in this
embedding beyond the strict sequential ordering of the returned list. -/

def sendDataLoop (write : Nat → Option String) (data : List Nat)
    (i k : Nat) : List (List Nat) × Option String :=
  if i < data.length then
    let chunk := (data.drop i).take MTU_SIZE
    match write k with
    | some e => ([chunk], some e)
    | none =>
      let rest := sendDataLoop write data (i + MTU_SIZE) (k + 1)
      (chunk :: rest.1, rest.2)
  else ([], none)
termination_by data.length - i
decreasing_by simp only [MTU_SIZE]; omega

/-- `PrinterManager.sendData`: rejects with `'Printer not connected'` when no
write characteristic is set, otherwise writes MTU-sized chunks sequentially
starting at offset 0. -/
def sendData (writeCharacteristic : Option Unit)
    (write : Nat → Option String) (data : List Nat) :
    List (List Nat) × Option String :=
  match writeCharacteristic with
  | none => ([], some "Printer not connected")
  | some _ => sendDataLoop write data 0 0

/-- The chunks `sendData` slices out of `data` from offset `i` on: the pure
chunking skeleton of the loop (`data.slice(i, i + MTU_SIZE)` per step). -/
def chunksFrom (data : List Nat) (i : Nat) : List (List Nat) :=
  if i < data.length then
    (data.drop i).take MTU_SIZE :: chunksFrom data (i + MTU_SIZE)
  else []
termination_by data.length - i
decreasing_by simp only [MTU_SIZE]; omega

/-! ### Device session (`PrinterManager.connect` / `disconnect`)

The Web Bluetooth environment is abstracted: each awaited browser call is an
oracle value in `ConnectEnv` (`Except.error e` = the promise rejects with
`e`).  Characteristic handles are abstract naturals. -/

/-- A GATT server handle: only its `connected` flag is read by the source. -/
structure GattServer where
  connected : Bool
  deriving DecidableEq

/-- A `BluetoothDevice`: its advertised `name` (`none` = absent) and optional
GATT server. -/
structure BTDevice where
  name : Option String
  gatt : Option GattServer
  deriving DecidableEq

/-- The mutable fields of `PrinterManager`. -/
structure PMState where
  device : Option BTDevice
  writeCharacteristic : Option Nat
  isConnected : Bool
  deriving DecidableEq

/-- One enumerated GATT service as probed by `connect`: whether the
`getCharacteristic(WRITE_CHAR_UUID)` probe resolves, and the outcome of the
second `getCharacteristic` call made on the selected service. -/
structure GattService where
  probeOk : Bool
  fetch : Except String Nat

/-- Outcomes of the awaited browser calls made by `connect`, in call order. -/
structure ConnectEnv where
  requestDevice : Except String BTDevice
  gattConnect : Except String Unit
  getPrimaryServices : Except String (List GattService)

/-- The service-probing loop of `connect`: the first service whose
`getCharacteristic(WRITE_CHAR_UUID)` probe succeeds (per-service failures are
swallowed by the inner `try`). -/
def findPrinterService : List GattService → Option GattService
  | [] => none
  | s :: rest => if s.probeOk then some s else findPrinterService rest

/-- `this.device.name || 'Phomemo'`: empty or absent names fall back. -/
def deviceNameOr (d : BTDevice) : String :=
  match d.name with
  | some n => if n = "" then "Phomemo" else n
  | none => "Phomemo"

/-- The `try` block of `connect`: straight-line field assignments with the
thrown error propagated.  The optional notification subscription is caught and
ignored by the source and touches no session field, so it does not appear. -/
def connectBody (env : ConnectEnv) (s : PMState) :
    PMState × Except String String :=
  match env.requestDevice with
  | Except.error e => (s, Except.error e)
  | Except.ok dev =>
    let s1 := { s with device := some dev }
    match dev.gatt with
    | none => (s1, Except.error "GATT server not available")
    | some _ =>
      match env.gattConnect with
      | Except.error e => (s1, Except.error e)
      | Except.ok _ =>
        match env.getPrimaryServices with
        | Except.error e => (s1, Except.error e)
        | Except.ok services =>
          match findPrinterService services with
          | none => (s1, Except.error "Could not find printer service")
          | some svc =>
            match svc.fetch with
            | Except.error e => (s1, Except.error e)
            | Except.ok ch =>
              ({ s1 with writeCharacteristic := some ch, isConnected := true },
               Except.ok (deviceNameOr dev))

/-- `PrinterManager.connect`: the `catch` clause sets `isConnected = false`
and rethrows; no other field is touched on the error path. -/
def connect (env : ConnectEnv) (s : PMState) :
    PMState × Except String String :=
  match connectBody env s with
  | (s1, Except.ok n) => (s1, Except.ok n)
  | (s1, Except.error e) => ({ s1 with isConnected := false }, Except.error e)

/-- `PrinterManager.disconnect`: calls `gatt.disconnect()` only when
`device?.gatt?.connected` is truthy (the Boolean returned alongside the new
state records whether that call happened), then unconditionally resets all
three session fields. -/
def disconnect (s : PMState) : PMState × Bool :=
  let gattWasConnected :=
    match s.device with
    | some d =>
      match d.gatt with
      | some g => g.connected
      | none => false
    | none => false
  ({ device := none, writeCharacteristic := none, isConnected := false },
   gattWasConnected)

/-! ### Command framer (`PrinterManager.printBitmap`)

`printBitmap` performs a fixed sequence of `sendData` calls; the embedding
returns the ordered list of payloads passed to `sendData` (the frames). -/

/-- The raster-block loop of `printBitmap` from row `startLine` on: each block
is the 8-byte `GS v 0` header for the group's actual row count followed by the
concatenated rows of the group. -/
def rasterBlocks (bitmap : List (List Nat)) (startLine : Nat) :
    List (List Nat) :=
  if startLine < bitmap.length then
    ([GS, 0x76, 0x30, 0x00, BYTES_PER_LINE, 0x00,
      (min (startLine + LINES_PER_CHUNK) bitmap.length - startLine) &&& 0xff,
      ((min (startLine + LINES_PER_CHUNK) bitmap.length - startLine) >>> 8)
        &&& 0xff]
     ++ ((bitmap.drop startLine).take
          (min (startLine + LINES_PER_CHUNK) bitmap.length - startLine)).flatten)
    :: rasterBlocks bitmap (startLine + LINES_PER_CHUNK)
  else []
termination_by bitmap.length - startLine
decreasing_by simp only [LINES_PER_CHUNK]; omega

/-- The ordered payloads `printBitmap` hands to `sendData`: reset, the
Phomemo frames `WAKE_PRINTER`, `SET_DENSITY`, `SET_LABEL_GAP`, the
center-justification frame, `SET_PRINT_SPEED`, the raster blocks and the
feed frame. -/
def printBitmapFrames (bitmap : List (List Nat)) : List (List Nat) :=
  [[ESC, 0x40], WAKE_PRINTER, SET_DENSITY, SET_LABEL_GAP,
   [ESC, 0x61, 0x01], SET_PRINT_SPEED]
  ++ rasterBlocks bitmap 0 ++ [[ESC, 0x64, 0x03]]

/-- The frame order claim C2 asserts, following the spec text (§4.2): reset,
then every vendor initialization frame of the profile in registry-declared
order (`WAKE_PRINTER`, `SET_DENSITY`, `SET_LABEL_GAP`, `SET_PRINT_SPEED`),
then the justification frame, then the raster blocks, then the feed frame. -/
def specClaimedFrames (bitmap : List (List Nat)) : List (List Nat) :=
  [[ESC, 0x40]]
  ++ [WAKE_PRINTER, SET_DENSITY, SET_LABEL_GAP, SET_PRINT_SPEED]
  ++ [[ESC, 0x61, 0x01]] ++ rasterBlocks bitmap 0 ++ [[ESC, 0x64, 0x03]]

/-! ### Device profile registry (`PRINTER_CONFIGS`, `DEFAULT_PRINTER_CONFIG`
of the profile-aware constants module) -/

/-- The four vendor initialization commands of a profile's `INIT_COMMANDS`
record, in registry-declared order. -/
structure InitCommandSet where
  WAKE_PRINTER : List Nat
  SET_DENSITY : List Nat
  SET_LABEL_GAP : List Nat
  SET_PRINT_SPEED : List Nat
  deriving DecidableEq

/-- `INIT_COMMANDS` flattened to its registry-declared frame order. -/
def InitCommandSet.toList (ic : InitCommandSet) : List (List Nat) :=
  [ic.WAKE_PRINTER, ic.SET_DENSITY, ic.SET_LABEL_GAP, ic.SET_PRINT_SPEED]

/-- One entry of the device profile registry (`PrinterConfig` typedef). -/
structure PrinterProfile where
  MODEL : String
  NAME : String
  SERVICE_UUID : String
  WRITE_CHAR_UUID : String
  NOTIFY_CHAR_UUID : String
  WIDTH : Nat
  BYTES_PER_LINE : Nat
  MTU_SIZE : Nat
  LINES_PER_CHUNK : Nat
  INIT_COMMANDS : Option InitCommandSet
  deriving DecidableEq

/-- `PRINTER_CONFIGS[PRINTER_MODELS.T02]`. -/
def T02_CONFIG : PrinterProfile where
  MODEL := "T02"
  NAME := "Phomemo T02/M02"
  SERVICE_UUID := "0000ff00-0000-1000-8000-00805f9b34fb"
  WRITE_CHAR_UUID := "0000ff02-0000-1000-8000-00805f9b34fb"
  NOTIFY_CHAR_UUID := "0000ff03-0000-1000-8000-00805f9b34fb"
  WIDTH := 384
  BYTES_PER_LINE := 48
  MTU_SIZE := 150
  LINES_PER_CHUNK := 8
  INIT_COMMANDS := some
    { WAKE_PRINTER := [0x1a, 0x04, 0x5a]
      SET_DENSITY := [0x1a, 0x09, 0x0c]
      SET_LABEL_GAP := [0x1a, 0x07, 0x01, 0x00, 0x00]
      SET_PRINT_SPEED := [0x1f, 0x11, 0x02, 0x04] }

/-- `PRINTER_CONFIGS[PRINTER_MODELS.HB4057]`. -/
def HB4057_CONFIG : PrinterProfile where
  MODEL := "HB-4057"
  NAME := "Hello Blink HB-4057"
  SERVICE_UUID := "49535343-fe7d-4ae5-8fa9-9fafd205e455"
  WRITE_CHAR_UUID := "49535343-8841-43f4-a8d4-ecbe34729bb3"
  NOTIFY_CHAR_UUID := "49535343-1e4d-4bd9-ba61-23c647249616"
  WIDTH := 384
  BYTES_PER_LINE := 48
  MTU_SIZE := 64
  LINES_PER_CHUNK := 8
  INIT_COMMANDS := none

/-- `DEFAULT_PRINTER_CONFIG`, the unknown/generic fallback. -/
def DEFAULT_PRINTER_CONFIG : PrinterProfile where
  MODEL := "Unknown"
  NAME := "Generic Printer"
  SERVICE_UUID := ""
  WRITE_CHAR_UUID := ""
  NOTIFY_CHAR_UUID := ""
  WIDTH := 384
  BYTES_PER_LINE := 48
  MTU_SIZE := 64
  LINES_PER_CHUNK := 8
  INIT_COMMANDS := none

/-- All registered profiles: the two concrete registry entries and the
unknown/default fallback. -/
def printerProfileRegistry : List PrinterProfile :=
  [T02_CONFIG, HB4057_CONFIG, DEFAULT_PRINTER_CONFIG]

/-! ### Profile-aware print (spec-modelled) -/

/-- Groups a bitmap's rows into consecutive groups of `n` rows, the last
group possibly shorter. -/
def chunkRows (n : Nat) : List (List Nat) → List (List (List Nat))
  | [] => []
  | r :: rest => (r :: rest.take (n - 1)) :: chunkRows n (rest.drop (n - 1))
termination_by l => l.length
decreasing_by simp [List.length_drop]; omega

/-- Modelled from the spec: one raster block of §4.2 step 4 — the 8-byte
header (raster opcode, mode byte, `bytesPerLine` little-endian, group row
count little-endian) followed by the group's rows concatenated. -/
def rasterBlockFrame (bytesPerLine : Nat) (group : List (List Nat)) :
    List Nat :=
  [GS, 0x76, 0x30, 0x00, bytesPerLine % 256, bytesPerLine / 256 % 256,
   group.length % 256, group.length / 256 % 256] ++ group.flatten

/-- Modelled from the spec: `buildPrintJob` of §4.2 for an arbitrary device
profile — reset, the profile's vendor init frames in registry-declared order
(none when `INIT_COMMANDS` is null), center justification, the raster blocks
in `LINES_PER_CHUNK`-row groups, and the feed frame.  The profile-aware
framer module itself is not present in the repository sources; only its unit
tests and the profile registry are. -/
def buildPrintJob (profile : PrinterProfile) (bitmap : List (List Nat)) :
    List (List Nat) :=
  [[ESC, 0x40]]
  ++ (match profile.INIT_COMMANDS with
      | some ic => ic.toList
      | none => [])
  ++ [[ESC, 0x61, 0x01]]
  ++ (chunkRows profile.LINES_PER_CHUNK bitmap).map
      (rasterBlockFrame profile.BYTES_PER_LINE)
  ++ [[ESC, 0x64, 0x03]]

/-- Modelled from the spec: the profile-aware `print` of §4.4 (the
configurable `PrinterManager` variant whose unit tests set
`printerManager.config`; that module's source is not in the repository).
With no device profile associated to the session it fails with the
`NotConfigured` error `'Printer not configured'`; otherwise it composes the
encoder and the framer. -/
def printWithProfile (config : Option PrinterProfile) (canvas : PixelBuffer) :
    Except String (List (List Nat)) :=
  match config with
  | none => Except.error "Printer not configured"
  | some profile =>
    Except.ok (buildPrintJob profile
      ((List.range canvas.height).map fun y =>
        (List.range profile.BYTES_PER_LINE).map fun x =>
          pixelByte canvas.data canvas.width y x))

/-! ### Concrete fixtures used by witness theorems -/

/-- Concrete instantiation of `canvasToBitmap_spec`: a 1×1 all-black canvas. -/
def blackPixelCanvas : PixelBuffer := ⟨1, 1, [0, 0, 0, 255]⟩

/-- The 1×1 canvas of RGB (8, 200, 72): its exact luminance is exactly 128
(`299·8 + 587·200 + 114·72 = 128000`), but the binary64 evaluation the
program performs lands just below 128, so the program inks the pixel. -/
def boundaryCanvas : PixelBuffer := ⟨1, 1, [8, 200, 72, 255]⟩

/-- The oracle of the `sendData_write_failure` witness: the very first
characteristic write rejects. -/
def failingFirstWrite : Nat → Option String :=
  fun j => if j = 0 then some "Write failed" else none

/-- Concrete session and environment for the `connect_failure_frame`
witness: the selected device exposes no GATT server, so `connect` fails
after device selection. -/
def gattlessDevice : BTDevice := ⟨some "Phomemo T02", none⟩

def gattlessEnv : ConnectEnv :=
  ⟨Except.ok gattlessDevice, Except.ok (), Except.ok []⟩

def staleState : PMState := ⟨none, some 7, false⟩

/-! ### Helper lemmas for the encoder -/

theorem Dyadic.blt_iff_toRat (a b : Dyadic) :
    a.blt b = true ↔ a.toRat < b.toRat := by
  have h2 : (0 : ℚ) < 2 := by norm_num
  unfold Dyadic.blt Dyadic.toRat
  by_cases h : a.e ≤ b.e
  · simp only [h, if_true, decide_eq_true_eq]
    have hb : (2 : ℚ) ^ b.e = ((2 ^ (b.e - a.e).toNat : ℕ) : ℚ) * 2 ^ a.e := by
      push_cast
      rw [← zpow_natCast (2 : ℚ) (b.e - a.e).toNat,
        ← zpow_add₀ (ne_of_gt h2)]
      congr 1
      omega
    rw [hb, ← mul_assoc, mul_lt_mul_right (zpow_pos h2 a.e)]
    constructor
    · intro hlt
      exact_mod_cast hlt
    · intro hlt
      exact_mod_cast hlt
  · simp only [h, if_false, decide_eq_true_eq]
    have ha : (2 : ℚ) ^ a.e = ((2 ^ (a.e - b.e).toNat : ℕ) : ℚ) * 2 ^ b.e := by
      push_cast
      rw [← zpow_natCast (2 : ℚ) (a.e - b.e).toNat,
        ← zpow_add₀ (ne_of_gt h2)]
      congr 1
      omega
    rw [ha, ← mul_assoc, mul_lt_mul_right (zpow_pos h2 b.e)]
    constructor
    · intro hlt
      exact_mod_cast hlt
    · intro hlt
      exact_mod_cast hlt

/-- `FP_0299` is within half an ulp of `0.299` (its binade is `[1/4, 1/2)`,
so the ulp is `2^-54`): it is the binary64 value of the literal. -/
theorem FP_0299_nearest : |FP_0299.toRat - 299 / 1000| ≤ 1 / 2 ^ 55 := by
  have h : FP_0299.toRat = 5386305154335113 / 2 ^ 54 := by
    unfold FP_0299 Dyadic.toRat
    rw [show (-54 : ℤ) = -(54 : ℕ) from rfl, zpow_neg, zpow_natCast]
    ring
  rw [h, abs_le]
  norm_num

/-- `FP_0587` is within half an ulp of `0.587` (binade `[1/2, 1)`, ulp
`2^-53`): it is the binary64 value of the literal. -/
theorem FP_0587_nearest : |FP_0587.toRat - 587 / 1000| ≤ 1 / 2 ^ 54 := by
  have h : FP_0587.toRat = 2643612981266481 / 2 ^ 52 := by
    unfold FP_0587 Dyadic.toRat
    rw [show (-52 : ℤ) = -(52 : ℕ) from rfl, zpow_neg, zpow_natCast]
    ring
  rw [h, abs_le]
  norm_num

/-- `FP_0114` is within half an ulp of `0.114` (binade `[1/16, 1/8)`, ulp
`2^-56`): it is the binary64 value of the literal. -/
theorem FP_0114_nearest : |FP_0114.toRat - 114 / 1000| ≤ 1 / 2 ^ 57 := by
  have h : FP_0114.toRat = 8214565720323785 / 2 ^ 56 := by
    unfold FP_0114 Dyadic.toRat
    rw [show (-56 : ℤ) = -(56 : ℕ) from rfl, zpow_neg, zpow_natCast]
    ring
  rw [h, abs_le]
  norm_num

theorem testBit_one_shiftLeft (m k : Nat) :
    Nat.testBit (1 <<< m) k = (m == k) := by
  rw [Nat.shiftLeft_eq, one_mul]
  by_cases h : m = k
  · subst h
    simp [Nat.testBit_two_pow_self]
  · simp [Nat.testBit_two_pow_of_ne h, h]

/-- `testBit` of a fold that only ORs in single bits at positions `7 - i`. -/
theorem testBit_setFold (l : List Nat) (acc : Nat) (g : Nat → Nat → Nat)
    (p : Nat → Bool)
    (hg : ∀ a i, g a i = if p i then a ||| (1 <<< (7 - i)) else a) (k : Nat) :
    Nat.testBit (l.foldl g acc) k =
      (Nat.testBit acc k || l.any fun i => p i && (7 - i == k)) := by
  induction l generalizing acc with
  | nil => simp
  | cons i t ih =>
    rw [List.foldl_cons, ih, hg]
    by_cases hp : p i
    · simp only [hp, if_true, Nat.testBit_or, testBit_one_shiftLeft,
        List.any_cons, Bool.true_and]
      rw [Bool.or_assoc]
    · simp [hp]

theorem foldl_fun_congr {l : List Nat} {f g : Nat → Nat → Nat} (a : Nat)
    (h : ∀ a i, i ∈ l → f a i = g a i) : l.foldl f a = l.foldl g a := by
  induction l generalizing a with
  | nil => rfl
  | cons x t ih =>
    rw [List.foldl_cons, List.foldl_cons, h _ _ (by simp)]
    exact ih _ fun a i hi => h a i (by simp [hi])

/-- The fold in `pixelByte` ORs in `1 <<< (7 - bit)` exactly when
`inkBit data width y x bit` holds. -/
theorem pixelByte_step_eq (data : List Nat) (width y x : Nat) :
    ∀ a bit,
      (fun byte bit =>
        let px := x * 8 + bit
        if px < width then
          let idx := (y * width + px) * 4
          if idx + 3 < data.length then
            if Dyadic.blt (brightness (data.getD idx 0) (data.getD (idx + 1) 0)
                (data.getD (idx + 2) 0)) FP_128 then
              byte ||| (1 <<< (7 - bit))
            else byte
          else byte
        else byte) a bit =
      if inkBit data width y x bit then a ||| (1 <<< (7 - bit)) else a := by
  intro a bit
  simp only [inkBit, luminance]
  by_cases h1 : x * 8 + bit < width
  · by_cases h2 : (y * width + (x * 8 + bit)) * 4 + 3 < data.length
    · by_cases h3 :
        Dyadic.blt (brightness (data.getD ((y * width + (x * 8 + bit)) * 4) 0)
          (data.getD ((y * width + (x * 8 + bit)) * 4 + 1) 0)
          (data.getD ((y * width + (x * 8 + bit)) * 4 + 2) 0)) FP_128 = true
      · simp [h1, h2, h3]
      · simp [h1, h2, h3]
    · simp [h1, h2]
  · simp [h1]

theorem pixelByte_testBit (data : List Nat) (width y x b : Nat) (hb : b < 8) :
    Nat.testBit (pixelByte data width y x) (7 - b) =
      inkBit data width y x b := by
  unfold pixelByte
  rw [testBit_setFold _ _ _ (inkBit data width y x)
    (pixelByte_step_eq data width y x)]
  rw [Nat.zero_testBit, Bool.false_or]
  interval_cases b <;> simp [List.range_succ]

theorem inkBit_iff (c : PixelBuffer)
    (hlen : c.data.length = c.width * c.height * 4) (y x b : Nat)
    (hy : y < c.height) :
    inkBit c.data c.width y x b = true ↔
      (x * 8 + b < c.width ∧
       Dyadic.blt (luminance c.data c.width y (x * 8 + b)) FP_128 = true) := by
  unfold inkBit
  simp only [Bool.and_eq_true, decide_eq_true_eq]
  constructor
  · rintro ⟨⟨h1, _⟩, h3⟩
    exact ⟨h1, h3⟩
  · rintro ⟨h1, h3⟩
    refine ⟨⟨h1, ?_⟩, h3⟩
    have hle : y * c.width + (x * 8 + b) + 1 ≤ c.height * c.width := by
      calc y * c.width + (x * 8 + b) + 1 ≤ y * c.width + c.width := by omega
        _ = (y + 1) * c.width := by ring
        _ ≤ c.height * c.width := Nat.mul_le_mul_right _ (by omega)
    have hcomm : c.width * c.height = c.height * c.width := Nat.mul_comm _ _
    omega

theorem getD_map_range {α : Type} (n y : Nat) (f : Nat → α) (d : α)
    (hy : y < n) : ((List.range n).map f).getD y d = f y := by
  rw [List.getD_eq_getElem?_getD, List.getElem?_map, List.getElem?_range hy]
  rfl

theorem pixelByte_data_congr (data d2 : List Nat) (width y x : Nat)
    (hlen2 : d2.length = data.length)
    (hagree : ∀ i, i % 4 ≠ 3 → d2.getD i 0 = data.getD i 0) :
    pixelByte d2 width y x = pixelByte data width y x := by
  unfold pixelByte
  apply foldl_fun_congr
  intro a bit _
  simp only
  by_cases h1 : x * 8 + bit < width
  · have e0 := hagree ((y * width + (x * 8 + bit)) * 4) (by omega)
    have e1 := hagree ((y * width + (x * 8 + bit)) * 4 + 1) (by omega)
    have e2 := hagree ((y * width + (x * 8 + bit)) * 4 + 2) (by omega)
    simp only [h1, if_true, hlen2, e0, e1, e2]
  · simp [h1]

/-- C1 (amended): `canvasToBitmap` on a canvas whose RGBA array has length
`width * height * 4` yields `height` rows of `BYTES_PER_LINE` bytes; bit
`7 - b` of byte column `x` in row `y` is set iff pixel `x*8 + b` exists and
the program's IEEE-754 binary64 evaluation of its luminance
`0.299·r + 0.587·g + 0.114·b` is strictly below 128 (this differs from the
exact-arithmetic threshold of the original claim exactly at byte triples
whose exact luminance is 128, where the double evaluation falls below it —
see `canvasToBitmap_spec_counterexample`); the alpha channel never
influences the result; and height 0 yields the empty bitmap. -/
theorem canvasToBitmap_spec (c : PixelBuffer)
    (hlen : c.data.length = c.width * c.height * 4) :
    (canvasToBitmap c).length = c.height ∧
    (∀ row ∈ canvasToBitmap c, row.length = BYTES_PER_LINE) ∧
    (∀ y x b, y < c.height → x < BYTES_PER_LINE → b < 8 →
      (Nat.testBit (((canvasToBitmap c).getD y []).getD x 0) (7 - b) = true ↔
        (x * 8 + b < c.width ∧
         Dyadic.blt (luminance c.data c.width y (x * 8 + b)) FP_128 = true))) ∧
    (∀ d2 : List Nat, d2.length = c.data.length →
      (∀ i, i % 4 ≠ 3 → d2.getD i 0 = c.data.getD i 0) →
      canvasToBitmap { c with data := d2 } = canvasToBitmap c) ∧
    (c.height = 0 → canvasToBitmap c = []) := by
  refine ⟨by simp [canvasToBitmap], ?_, ?_, ?_, ?_⟩
  · intro row hrow
    simp only [canvasToBitmap, List.mem_map] at hrow
    obtain ⟨y, _, rfl⟩ := hrow
    simp
  · intro y x b hy hx hb
    rw [show canvasToBitmap c =
        (List.range c.height).map (fun y => (List.range BYTES_PER_LINE).map
          fun x => pixelByte c.data c.width y x) from rfl]
    rw [getD_map_range _ _ _ _ hy, getD_map_range _ _ _ _ hx]
    rw [pixelByte_testBit _ _ _ _ _ hb]
    exact inkBit_iff c hlen y x b hy
  · intro d2 hlen2 hagree
    simp only [canvasToBitmap]
    have hfun :
        (fun y => (List.range BYTES_PER_LINE).map
          fun x => pixelByte d2 c.width y x) =
        fun y => (List.range BYTES_PER_LINE).map
          fun x => pixelByte c.data c.width y x := by
      funext y
      have hx : (fun x => pixelByte d2 c.width y x) =
          fun x => pixelByte c.data c.width y x :=
        funext fun x => pixelByte_data_congr c.data d2 c.width y x hlen2 hagree
      rw [hx]
    rw [hfun]
  · intro h0
    simp [canvasToBitmap, h0]

theorem canvasToBitmap_spec_witness :
    blackPixelCanvas.data.length =
      blackPixelCanvas.width * blackPixelCanvas.height * 4 ∧
    (canvasToBitmap blackPixelCanvas).length = blackPixelCanvas.height :=
  ⟨by decide, (canvasToBitmap_spec blackPixelCanvas (by decide)).1⟩

/-- C1 counterexample: the original claim — bit `7 - b` is set iff the pixel
exists and the exact luminance `0.299·r + 0.587·g + 0.114·b` is strictly
less than 128 — is false of the program.  On the 1×1 canvas of RGB
(8, 200, 72) the exact luminance is exactly 128 (so not `< 128`), yet the
binary64 evaluation the program performs yields `(2^53 - 1)·2^-46`, which is
below 128, and `canvasToBitmap` sets the bit: the first byte is `0x80`. -/
theorem canvasToBitmap_spec_counterexample :
    boundaryCanvas.data.length =
      boundaryCanvas.width * boundaryCanvas.height * 4 ∧
    exactLuminance 8 200 72 = 128 ∧
    brightness 8 200 72 = ⟨9007199254740991, -46⟩ ∧
    ((canvasToBitmap boundaryCanvas).getD 0 []).getD 0 0 = 0x80 ∧
    ¬ (Nat.testBit (((canvasToBitmap boundaryCanvas).getD 0 []).getD 0 0)
        (7 - 0) = true ↔
       (0 * 8 + 0 < boundaryCanvas.width ∧
        exactLuminance 8 200 72 < 128)) := by
  refine ⟨by decide, by norm_num [exactLuminance], by decide, by decide, ?_⟩
  intro hiff
  have hbit : Nat.testBit
      (((canvasToBitmap boundaryCanvas).getD 0 []).getD 0 0) (7 - 0) = true := by
    decide
  have hlt := (hiff.mp hbit).2
  norm_num [exactLuminance] at hlt

/-! ### Transport lemmas -/

theorem sendDataLoop_ok_eq (write : Nat → Option String)
    (hw : ∀ k, write k = none) (data : List Nat) (i k : Nat) :
    sendDataLoop write data i k = (chunksFrom data i, none) := by
  rw [sendDataLoop, chunksFrom]
  by_cases h : i < data.length
  · simp only [h, if_true, hw k]
    rw [sendDataLoop_ok_eq write hw data (i + MTU_SIZE) (k + 1)]
  · simp [h]
termination_by data.length - i
decreasing_by simp only [MTU_SIZE]; omega

theorem chunksFrom_length (data : List Nat) (i : Nat) :
    (chunksFrom data i).length =
      (data.length - i + (MTU_SIZE - 1)) / MTU_SIZE := by
  rw [chunksFrom]
  by_cases h : i < data.length
  · simp only [h, if_true, List.length_cons]
    rw [chunksFrom_length data (i + MTU_SIZE)]
    simp only [MTU_SIZE]
    omega
  · simp only [h, if_false, List.length_nil, MTU_SIZE]
    omega
termination_by data.length - i
decreasing_by simp only [MTU_SIZE]; omega

theorem chunksFrom_getD (data : List Nat) (i j : Nat)
    (hj : j < (chunksFrom data i).length) :
    (chunksFrom data i).getD j [] =
      (data.drop (i + j * MTU_SIZE)).take MTU_SIZE := by
  induction j generalizing i with
  | zero =>
    rw [chunksFrom] at hj ⊢
    by_cases h : i < data.length
    · simp [h]
    · simp [h] at hj
  | succ j ih =>
    rw [chunksFrom] at hj ⊢
    by_cases h : i < data.length
    · simp only [h, if_true, List.length_cons] at hj
      simp only [h, if_true, List.getD_cons_succ]
      rw [ih (i + MTU_SIZE) (by omega)]
      have harith : i + MTU_SIZE + j * MTU_SIZE = i + (j + 1) * MTU_SIZE := by
        ring
      rw [harith]
    · simp [h] at hj

/-- C3: with a configured characteristic and an always-succeeding channel,
`sendData` issues exactly `ceil(L / 150)` sequential writes; write `i` is the
slice of the input starting at offset `i * 150` and has length
`min 150 (L - i * 150)`; `L = 0` issues zero writes and succeeds. -/
theorem sendData_success_chunking (data : List Nat) :
    (sendData (some ()) (fun _ => none) data).2 = none ∧
    (sendData (some ()) (fun _ => none) data).1.length =
      (data.length + (MTU_SIZE - 1)) / MTU_SIZE ∧
    (∀ i, i < (sendData (some ()) (fun _ => none) data).1.length →
      (sendData (some ()) (fun _ => none) data).1.getD i [] =
        (data.drop (i * MTU_SIZE)).take MTU_SIZE ∧
      ((sendData (some ()) (fun _ => none) data).1.getD i []).length =
        min MTU_SIZE (data.length - i * MTU_SIZE)) := by
  have hok : sendData (some ()) (fun _ => none) data =
      (chunksFrom data 0, none) := by
    rw [show sendData (some ()) (fun _ => none) data =
        sendDataLoop (fun _ => none) data 0 0 from rfl]
    exact sendDataLoop_ok_eq _ (fun _ => rfl) data 0 0
  rw [hok]
  refine ⟨rfl, ?_, ?_⟩
  · rw [chunksFrom_length, Nat.sub_zero]
  · intro i hi
    have hget := chunksFrom_getD data 0 i (by simpa using hi)
    rw [Nat.zero_add] at hget
    refine ⟨by simpa using hget, ?_⟩
    simp only [hget]
    rw [List.length_take, List.length_drop]

/-- C6: with no write characteristic configured, `sendData` rejects with
`'Printer not connected'` and performs zero writes, for every payload. -/
theorem sendData_not_connected (write : Nat → Option String)
    (data : List Nat) :
    sendData none write data = ([], some "Printer not connected") := rfl

theorem sendDataLoop_fail_aux (write : Nat → Option String) (e : String) :
    ∀ (n : Nat) (data : List Nat) (i k0 : Nat),
      write (k0 + n) = some e →
      (∀ j, k0 ≤ j → j < k0 + n → write j = none) →
      n * MTU_SIZE + i < data.length →
      sendDataLoop write data i k0 =
        ((List.range (n + 1)).map
          (fun j => (data.drop (i + j * MTU_SIZE)).take MTU_SIZE), some e) := by
  intro n
  induction n with
  | zero =>
    intro data i k0 hk _ hlen
    rw [sendDataLoop]
    have hi : i < data.length := by omega
    rw [Nat.add_zero] at hk
    simp only [hi, if_true]
    rw [hk]
    rw [show List.range 1 = [0] from rfl]
    simp
  | succ n ih =>
    intro data i k0 hk hprev hlen
    rw [sendDataLoop]
    have hi : i < data.length := by simp only [MTU_SIZE] at hlen; omega
    simp only [hi, if_true]
    rw [hprev k0 (Nat.le_refl _) (by omega)]
    rw [ih data (i + MTU_SIZE) (k0 + 1) (by rw [show k0 + 1 + n = k0 + (n + 1) from by omega]; exact hk)
      (fun j hj1 hj2 => hprev j (by omega) (by omega))
      (by simp only [MTU_SIZE] at *; omega)]
    simp only [Prod.mk.injEq, and_true]
    conv_rhs => rw [List.range_succ_eq_map, List.map_cons, List.map_map]
    simp only [Nat.zero_mul, Nat.add_zero]
    congr 1
    congr 1
    funext j
    simp only [Function.comp_apply]
    congr 2
    rw [Nat.succ_eq_add_one]
    ring

/-- C7: when the write of chunk `k` rejects with `e` and every earlier write
succeeded, `sendData` rejects with that same error; exactly the chunks
`0..k` are written (none with index greater than `k`), and the failed chunk
appears exactly once (no retry). -/
theorem sendData_write_failure (data : List Nat) (write : Nat → Option String)
    (k : Nat) (e : String) (hk : write k = some e)
    (hprev : ∀ j, j < k → write j = none)
    (hlt : k * MTU_SIZE < data.length) :
    (sendData (some ()) write data).2 = some e ∧
    (sendData (some ()) write data).1.length = k + 1 ∧
    (sendData (some ()) write data).1 =
      (List.range (k + 1)).map
        fun j => (data.drop (j * MTU_SIZE)).take MTU_SIZE := by
  have h := sendDataLoop_fail_aux write e k data 0 0 (by simpa using hk)
    (fun j hj1 hj2 => hprev j (by omega)) (by omega)
  rw [show sendData (some ()) write data = sendDataLoop write data 0 0 from
    rfl, h]
  refine ⟨rfl, by simp, ?_⟩
  simp

theorem sendData_write_failure_witness :
    failingFirstWrite 0 = some "Write failed" ∧
    (0 : Nat) * MTU_SIZE < ([1, 2, 3] : List Nat).length ∧
    (sendData (some ()) failingFirstWrite [1, 2, 3]).2 = some "Write failed" :=
  ⟨rfl, by decide,
    (sendData_write_failure [1, 2, 3] failingFirstWrite 0 "Write failed" rfl
      (fun j hj => absurd hj (Nat.not_lt_zero j)) (by decide)).1⟩

/-! ### Frame-order and raster-block lemmas -/

theorem rasterBlocks_nil (startLine : Nat) : rasterBlocks [] startLine = [] := by
  rw [rasterBlocks]
  simp

/-- C2 counterexample: `printBitmap` does NOT follow the spec's claimed order.
Already on the empty bitmap, frame 4 is the center-justification frame and
frame 5 is the vendor initialization frame `SET_PRINT_SPEED`, so a vendor
init frame is emitted after the justification frame and the emitted sequence
differs from the spec-ordered one. -/
theorem printBitmap_spec_order_counterexample :
    (printBitmapFrames []).getD 4 [] = [0x1b, 0x61, 0x01] ∧
    (printBitmapFrames []).getD 5 [] = SET_PRINT_SPEED ∧
    printBitmapFrames [] ≠ specClaimedFrames [] := by
  have h1 : rasterBlocks [] 0 = [] := rasterBlocks_nil 0
  have h2 : printBitmapFrames [] =
      [[0x1b, 0x40], [0x1a, 0x04, 0x5a], [0x1a, 0x09, 0x0c],
       [0x1a, 0x07, 0x01, 0x00, 0x00], [0x1b, 0x61, 0x01],
       [0x1f, 0x11, 0x02, 0x04], [0x1b, 0x64, 0x03]] := by
    simp [printBitmapFrames, h1, ESC, WAKE_PRINTER, SET_DENSITY,
      SET_LABEL_GAP, SET_PRINT_SPEED]
  have h3 : specClaimedFrames [] =
      [[0x1b, 0x40], [0x1a, 0x04, 0x5a], [0x1a, 0x09, 0x0c],
       [0x1a, 0x07, 0x01, 0x00, 0x00], [0x1f, 0x11, 0x02, 0x04],
       [0x1b, 0x61, 0x01], [0x1b, 0x64, 0x03]] := by
    simp [specClaimedFrames, h1, ESC, WAKE_PRINTER, SET_DENSITY,
      SET_LABEL_GAP, SET_PRINT_SPEED]
  rw [h2, h3]
  refine ⟨rfl, rfl, by decide⟩

/-- C2 (amended): for every bitmap, `printBitmap` emits the reset frame, the
vendor frames `WAKE_PRINTER`, `SET_DENSITY` and `SET_LABEL_GAP`, the
center-justification frame, the vendor frame `SET_PRINT_SPEED` (after the
justification frame), the raster blocks in order, and the feed frame. -/
theorem printBitmap_frame_order (bitmap : List (List Nat)) :
    printBitmapFrames bitmap =
      [[0x1b, 0x40], [0x1a, 0x04, 0x5a], [0x1a, 0x09, 0x0c],
       [0x1a, 0x07, 0x01, 0x00, 0x00], [0x1b, 0x61, 0x01],
       [0x1f, 0x11, 0x02, 0x04]]
      ++ rasterBlocks bitmap 0 ++ [[0x1b, 0x64, 0x03]] := rfl

theorem and_255_eq_mod (n : Nat) : n &&& 0xff = n % 256 := by
  have h : (0xff : Nat) = 2 ^ 8 - 1 := by norm_num
  rw [h, Nat.and_pow_two_sub_one_eq_mod]

theorem shiftRight_8_eq_div (n : Nat) : n >>> 8 = n / 256 := by
  rw [Nat.shiftRight_eq_div_pow]

theorem rasterBlocks_length (bitmap : List (List Nat)) (startLine : Nat) :
    (rasterBlocks bitmap startLine).length =
      (bitmap.length - startLine + (LINES_PER_CHUNK - 1)) / LINES_PER_CHUNK := by
  rw [rasterBlocks]
  by_cases h : startLine < bitmap.length
  · simp only [h, if_true, List.length_cons]
    rw [rasterBlocks_length bitmap (startLine + LINES_PER_CHUNK)]
    simp only [LINES_PER_CHUNK]
    omega
  · simp only [h, if_false, List.length_nil, LINES_PER_CHUNK]
    omega
termination_by bitmap.length - startLine
decreasing_by simp only [LINES_PER_CHUNK]; omega

theorem rasterBlocks_getD (bitmap : List (List Nat)) (startLine j : Nat)
    (hj : j < (rasterBlocks bitmap startLine).length) :
    (rasterBlocks bitmap startLine).getD j [] =
      [GS, 0x76, 0x30, 0x00, BYTES_PER_LINE, 0x00,
       (min (startLine + j * LINES_PER_CHUNK + LINES_PER_CHUNK) bitmap.length
         - (startLine + j * LINES_PER_CHUNK)) &&& 0xff,
       ((min (startLine + j * LINES_PER_CHUNK + LINES_PER_CHUNK) bitmap.length
         - (startLine + j * LINES_PER_CHUNK)) >>> 8) &&& 0xff]
      ++ ((bitmap.drop (startLine + j * LINES_PER_CHUNK)).take
          (min (startLine + j * LINES_PER_CHUNK + LINES_PER_CHUNK)
            bitmap.length - (startLine + j * LINES_PER_CHUNK))).flatten := by
  induction j generalizing startLine with
  | zero =>
    rw [rasterBlocks] at hj ⊢
    by_cases h : startLine < bitmap.length
    · simp [h]
    · simp [h] at hj
  | succ j ih =>
    rw [rasterBlocks] at hj ⊢
    by_cases h : startLine < bitmap.length
    · simp only [h, if_true, List.length_cons] at hj
      simp only [h, if_true, List.getD_cons_succ]
      rw [ih (startLine + LINES_PER_CHUNK) (by omega)]
      have harith : startLine + LINES_PER_CHUNK + j * LINES_PER_CHUNK =
          startLine + (j + 1) * LINES_PER_CHUNK := by ring
      rw [harith]
    · simp [h] at hj

/-- C4: over a bitmap of `N` rows (N > 0), `printBitmap` builds exactly
`ceil(N/8)` raster blocks; block `j` is the 8-byte header
`[0x1D, 0x76, 0x30, 0x00, 48, 0x00, c mod 256, c/256 mod 256]` for the
block's actual row count `c = min (j*8+8) N - j*8`, immediately followed by
that block's rows concatenated in order; and the final block's header height
byte equals `N mod 8`, or 8 when `8 ∣ N`. -/
theorem printBitmap_raster_blocks (bitmap : List (List Nat))
    (hpos : 0 < bitmap.length) :
    (rasterBlocks bitmap 0).length = (bitmap.length + 7) / 8 ∧
    (∀ j, j < (rasterBlocks bitmap 0).length →
      (rasterBlocks bitmap 0).getD j [] =
        [0x1d, 0x76, 0x30, 0x00, 48, 0x00,
         (min (j * 8 + 8) bitmap.length - j * 8) % 256,
         (min (j * 8 + 8) bitmap.length - j * 8) / 256 % 256]
        ++ ((bitmap.drop (j * 8)).take
            (min (j * 8 + 8) bitmap.length - j * 8)).flatten) ∧
    ((rasterBlocks bitmap 0).getD ((bitmap.length + 7) / 8 - 1) []).getD 6 0 =
      (if bitmap.length % 8 = 0 then 8 else bitmap.length % 8) := by
  have hlen := rasterBlocks_length bitmap 0
  have hlen' : (rasterBlocks bitmap 0).length = (bitmap.length + 7) / 8 := by
    rw [hlen]
    simp only [LINES_PER_CHUNK]
    omega
  have hblock : ∀ j, j < (rasterBlocks bitmap 0).length →
      (rasterBlocks bitmap 0).getD j [] =
        [0x1d, 0x76, 0x30, 0x00, 48, 0x00,
         (min (j * 8 + 8) bitmap.length - j * 8) % 256,
         (min (j * 8 + 8) bitmap.length - j * 8) / 256 % 256]
        ++ ((bitmap.drop (j * 8)).take
            (min (j * 8 + 8) bitmap.length - j * 8)).flatten := by
    intro j hj
    have h := rasterBlocks_getD bitmap 0 j hj
    rw [h]
    simp only [LINES_PER_CHUNK, BYTES_PER_LINE, GS, Nat.zero_add,
      and_255_eq_mod, shiftRight_8_eq_div]
  refine ⟨hlen', hblock, ?_⟩
  have hjlt : (bitmap.length + 7) / 8 - 1 < (rasterBlocks bitmap 0).length := by
    rw [hlen']
    omega
  rw [hblock _ hjlt]
  rw [List.getD_append _ _ _ _ (by simp)]
  have hc : (min (((bitmap.length + 7) / 8 - 1) * 8 + 8) bitmap.length
      - ((bitmap.length + 7) / 8 - 1) * 8) =
      (if bitmap.length % 8 = 0 then 8 else bitmap.length % 8) := by
    by_cases h8 : bitmap.length % 8 = 0 <;> simp only [h8, if_true, if_false] <;> omega
  simp only [List.getD]
  simp
  by_cases h8 : bitmap.length % 8 = 0 <;> simp only [h8, if_true, if_false] <;> omega

theorem printBitmap_raster_blocks_witness :
    0 < ([[1]] : List (List Nat)).length ∧
    (rasterBlocks [[1]] 0).length = (([[1]] : List (List Nat)).length + 7) / 8 :=
  ⟨by decide, (printBitmap_raster_blocks [[1]] (by decide)).1⟩

/-! ### Error handling and session lemmas -/

/-- C5 (spec-modelled): for every canvas, the profile-aware `print` with no
resolved device profile rejects with the `NotConfigured` error
`'Printer not configured'`, which is distinct from the `NotConnected`
transport error `'Printer not connected'` that `sendData` raises. -/
theorem print_not_configured (canvas : PixelBuffer) :
    printWithProfile none canvas = Except.error "Printer not configured" ∧
    (Except.error "Printer not configured" :
      Except String (List (List Nat))) ≠
      Except.error "Printer not connected" := by
  refine ⟨rfl, fun h => ?_⟩
  rw [Except.error.injEq] at h
  exact absurd h (by decide)

/-- C8: `disconnect` (a total function: it never throws) always leaves
`isConnected = false` and both handles `null`; a second call leaves
`connected = false` again and is a no-op — it does not even reach
`gatt.disconnect()`, since the device handle is already `null`. -/
theorem disconnect_idempotent (s : PMState) :
    (disconnect s).1.isConnected = false ∧
    (disconnect s).1.device = none ∧
    (disconnect s).1.writeCharacteristic = none ∧
    disconnect (disconnect s).1 = ((disconnect s).1, false) := by
  refine ⟨rfl, rfl, rfl, rfl⟩

/-- C9: every profile in the registry — T02, HB-4057 and the unknown/default
fallback — has `WIDTH = 384` and `BYTES_PER_LINE = 48`, so
`WIDTH / 8 = BYTES_PER_LINE` holds for every registered profile. -/
theorem printer_registry_geometry (p : PrinterProfile)
    (hp : p ∈ printerProfileRegistry) :
    p.WIDTH = 384 ∧ p.BYTES_PER_LINE = 48 ∧ p.WIDTH / 8 = p.BYTES_PER_LINE := by
  simp only [printerProfileRegistry, List.mem_cons, List.not_mem_nil,
    or_false] at hp
  rcases hp with h | h | h <;> subst h <;> exact ⟨rfl, rfl, rfl⟩

theorem printer_registry_geometry_witness :
    T02_CONFIG ∈ printerProfileRegistry ∧ T02_CONFIG.WIDTH = 384 :=
  ⟨by simp [printerProfileRegistry],
    (printer_registry_geometry T02_CONFIG (by simp [printerProfileRegistry])).1⟩

/-- C10: whenever `connect` rejects after `requestDevice` resolved with a
device `d`, the `catch` clause sets only `isConnected = false` before
rethrowing: the `device` field still holds `d`, and `writeCharacteristic`
keeps the value it had before the call (within a single failing `connect`
no write-characteristic assignment can precede the failure, because after
that assignment no statement can throw), so session fields are not reset to
`null` on a failed connect. -/
theorem connect_failure_frame (env : ConnectEnv) (s : PMState) (d : BTDevice)
    (e : String) (hdev : env.requestDevice = Except.ok d)
    (herr : (connect env s).2 = Except.error e) :
    (connect env s).1.isConnected = false ∧
    (connect env s).1.device = some d ∧
    (connect env s).1.writeCharacteristic = s.writeCharacteristic := by
  unfold connect connectBody at herr ⊢
  simp only [hdev] at herr ⊢
  rcases hgatt : d.gatt with _ | g <;> simp only [hgatt] at herr ⊢
  · simp
  · rcases hgc : env.gattConnect with e1 | u <;> simp only [hgc] at herr ⊢
    · simp
    · rcases hsv : env.getPrimaryServices with e2 | services <;>
        simp only [hsv] at herr ⊢
      · simp
      · rcases hfind : findPrinterService services with _ | svc <;>
          simp only [hfind] at herr ⊢
        · simp
        · rcases hfetch : svc.fetch with e3 | ch <;>
            simp only [hfetch] at herr ⊢
          · simp
          · simp at herr

theorem connect_failure_frame_witness :
    gattlessEnv.requestDevice = Except.ok gattlessDevice ∧
    (connect gattlessEnv staleState).2 =
      Except.error "GATT server not available" ∧
    (connect gattlessEnv staleState).1.device = some gattlessDevice :=
  ⟨rfl, rfl,
    (connect_failure_frame gattlessEnv staleState gattlessDevice
      "GATT server not available" rfl rfl).2.1⟩
